import Mathlib

/-!
Verification development for the video-tools-cli repository.

Shallow embedding of the parallel chunked segment downloader
(src/core/downloader.py) and the metadata probe slice of
src/core/ffmpeg_handler.py.  Subprocess calls, the filesystem and the
thread pool are modelled by explicit environment/state records; Python
floats are modelled by rationals; Python exceptions by an Except monad.
-/

namespace VideoTools

/- ===================================================================
   Model of ffprobe JSON metadata and Python dynamic operations, for
   FFmpegHandler.get_video_info / FFmpegHandler.get_duration
   (src/core/ffmpeg_handler.py, lines 143-183).
   =================================================================== -/

/-- A JSON value, as returned by json.loads on ffprobe output. -/
inductive JVal where
  | jnull
  | jbool (b : Bool)
  | jnum (q : ℚ)
  | jstr (s : String)
  | jarr (xs : List JVal)
  | jobj (fields : List (String × JVal))

/-- The Python exceptions relevant to get_duration: KeyError and
ValueError are caught by its handler, TypeError is not. -/
inductive PyErr where
  | keyError
  | valueError
  | typeError
deriving DecidableEq

/-- Python truthiness of a JSON value (`if info:`): None, False, 0,
empty string/list/dict are falsy. -/
def truthy : JVal → Bool
  | .jnull => false
  | .jbool b => b
  | .jnum q => q != 0
  | .jstr s => s != ("")
  | .jarr xs => !xs.isEmpty
  | .jobj fields => !fields.isEmpty

/-- Python subscripting `v[key]` with a string key: on a dict it returns
the value or raises KeyError; on any non-dict value it raises TypeError. -/
def getItem (v : JVal) (key : String) : Except PyErr JVal :=
  match v with
  | .jobj fields =>
      match fields.lookup key with
      | some x => .ok x
      | none => .error .keyError
  | _ => .error .typeError

/-- Digits to a natural number, most significant first. -/
def digitsToNat (ds : List Char) : Nat :=
  ds.foldl (fun n c => 10 * n + (c.toNat - 48)) 0

/-- Model of Python float() on a string (restricted to plain decimal
notation: optional sign, digits, optional single decimal point; the
exponent/inf/nan forms are outside the model since ℚ has no infinities).
Returns none where Python raises ValueError. -/
def parsePyFloat (s : String) : Option ℚ :=
  let cs := s.trim.toList
  let signRest : Bool × List Char :=
    match cs with
    | '-' :: r => (true, r)
    | '+' :: r => (false, r)
    | r => (false, r)
  let neg := signRest.1
  let rest := signRest.2
  match rest.splitOn '.' with
  | [intPart] =>
      if !intPart.isEmpty && intPart.all Char.isDigit then
        some ((if neg then -1 else 1) * (digitsToNat intPart : ℚ))
      else none
  | [intPart, fracPart] =>
      if (!intPart.isEmpty || !fracPart.isEmpty)
          && intPart.all Char.isDigit && fracPart.all Char.isDigit then
        some ((if neg then -1 else 1) *
          ((digitsToNat intPart : ℚ)
            + (digitsToNat fracPart : ℚ) / (10 ^ fracPart.length)))
      else none
  | _ => none

/-- Model of the Python builtin float() applied to a JSON value:
numbers convert, booleans convert (True = 1.0), strings parse or raise
ValueError, everything else (None, list, dict) raises TypeError. -/
def pyFloat : JVal → Except PyErr ℚ
  | .jnum q => .ok q
  | .jbool b => .ok (if b then 1 else 0)
  | .jstr s =>
      match parsePyFloat s with
      | some q => .ok q
      | none => .error .valueError
  | .jnull => .error .typeError
  | .jarr _ => .error .typeError
  | .jobj _ => .error .typeError

/-- Environment of one ffprobe invocation: whether subprocess.run raised
a CalledProcessError, its exit code, and the parse of its stdout
(none models a json.JSONDecodeError). -/
structure ProbeEnv where
  subprocessError : Bool
  returncode : Int
  stdoutJson : Option JVal

/-- Model of FFmpegHandler.get_video_info: returns the parsed JSON on
exit code 0, and None on non-zero exit, CalledProcessError, or
JSONDecodeError (all caught). -/
def get_video_info (e : ProbeEnv) : Option JVal :=
  if e.subprocessError then none
  else if e.returncode = 0 then e.stdoutJson
  else none

/-- The body of get_duration's try block:
float(info[format][duration]) with Python exception propagation,
evaluated left to right. -/
def durationLookup (info : JVal) : Except PyErr ℚ :=
  match getItem info ("format") with
  | .error err => .error err
  | .ok fmt =>
      match getItem fmt ("duration") with
      | .error err => .error err
      | .ok d => pyFloat d

/-- Model of FFmpegHandler.get_duration: 0.0 when the probe yields
nothing or a falsy value; otherwise the float of format.duration,
with KeyError and ValueError caught (yielding 0.0) but any other
exception (TypeError) propagating to the caller. -/
def get_duration (e : ProbeEnv) : Except PyErr ℚ :=
  match get_video_info e with
  | none => .ok 0
  | some info =>
      if truthy info then
        match durationLookup info with
        | .ok q => .ok q
        | .error .keyError => .ok 0
        | .error .valueError => .ok 0
        | .error err => .error err
      else .ok 0

/-- Duration values on which float() does not raise TypeError. -/
def safeDuration : JVal → Bool
  | .jnum _ => true
  | .jbool _ => true
  | .jstr _ => true
  | _ => false

/-- Metadata shapes on which get_duration raises no uncaught exception:
falsy values never reach the lookup; a truthy value must be a dict whose
format field, if present, is a dict whose duration field, if present,
is a number, boolean or string. -/
def shapeOk : JVal → Bool
  | .jobj fields =>
      (match fields.lookup ("format") with
       | none => true
       | some (.jobj fs2) =>
           (match fs2.lookup ("duration") with
            | none => true
            | some d => safeDuration d)
       | some _ => false)
  | v => !truthy v

/- ===================================================================
   Model of the parallel chunked downloader (src/core/downloader.py).

   Each ffmpeg subprocess call is replaced by an oracle outcome carried
   in an environment record; the filesystem facts the claims mention
   (temp chunk directory, concat manifest, final output) are explicit
   Booleans threaded as state.
   =================================================================== -/

/-- Outcome of one chunk worker (_download_chunk via the pool):
ok = returned True, fail = returned False (non-zero ffmpeg exit, or a
SubprocessError caught inside _download_chunk), raised = the worker
threw, so future.result() re-raises inside the collection loop. -/
inductive WOutcome where
  | ok
  | fail
  | raised
deriving DecidableEq

/-- Outcome of the ffmpeg concat subprocess inside _merge_chunks. -/
inductive ConcatOutcome where
  | ok
  | exitNonzero
  | raised
deriving DecidableEq

/-- Oracle environment for one download_segment_parallel call:
per-index worker outcomes, the order in which the futures complete
(as_completed order), the concat outcome, and the outcome of the
single-shot ffmpeg_handler.download_segment path. -/
structure Env where
  worker : Nat → WOutcome
  completion : List Nat
  concatOutcome : ConcatOutcome
  singleOk : Bool

/-- The filesystem facts the claims are about. -/
structure FS where
  tempDirExists : Bool
  manifestExists : Bool
  outputExists : Bool
deriving DecidableEq

/-- CACHE_DIR / f-string chunks_pid (_get_temp_dir, line 43). -/
def tempDirPath (cacheDir : String) (pid : Nat) : String :=
  cacheDir ++ ("/chunks_") ++ toString pid

/-- CACHE_DIR / f-string concat_list_pid.txt (_merge_chunks, line 112). -/
def concatListPath (cacheDir : String) (pid : Nat) : String :=
  cacheDir ++ ("/concat_list_") ++ toString pid ++ (".txt")

/-- Zero padding to width 3, as in the chunk filename format. -/
def pad3 (i : Nat) : String :=
  let s := toString i
  if 3 ≤ s.length then s else String.mk (List.replicate (3 - s.length) '0') ++ s

/-- temp_dir / f-string chunk_i.mp4 (line 177), i zero-padded to 3. -/
def chunkFilePath (tempDir : String) (i : Nat) : String :=
  tempDir ++ ("/chunk_") ++ pad3 i ++ (".mp4")

/-- One planned chunk: (chunk_start, chunk_duration, chunk_file),
its index being its position in the plan (lines 174-178). -/
structure ChunkTask where
  start : ℚ
  duration : ℚ
  path : String
deriving DecidableEq

/-- The chunk planning loop (lines 166-178): chunk i starts at
start_time + i * chunk_duration with chunk_duration = total / n. -/
def planChunks (startTime endTime : ℚ) (n : Nat) (tempDir : String) : List ChunkTask :=
  (List.range n).map (fun (i : Nat) =>
    { start := startTime + (i : ℚ) * ((endTime - startTime) / n),
      duration := (endTime - startTime) / n,
      path := chunkFilePath tempDir i })

/-- What the executor block (lines 186-203) produces: the per-future
recorded outcomes in completion order, the successful (index, path)
pairs appended in completion order, and the success flag, which starts
True and is set False at every failed or raising future. -/
structure ExecOutcome where
  results : List (Nat × Bool)
  collected : List (Nat × String)
  successFlag : Bool

/-- Model of the as_completed collection loop: every future is examined
(a raising worker is caught by the except branch and recorded as a
failure for its index, so nothing propagates and no sibling task is
cancelled); successes are appended in completion order; the flag is
True iff no failure was seen. -/
def runExecutor (worker : Nat → WOutcome) (completion : List Nat)
    (tempDir : String) : ExecOutcome :=
  { results := completion.map (fun i => (i, worker i == .ok)),
    collected := (completion.filter (fun i => worker i == .ok)).map
      (fun i => (i, chunkFilePath tempDir i)),
    successFlag := completion.all (fun i => worker i == .ok) }

/-- Insertion of one (index, path) pair into a key-sorted list. -/
def insertByIdx (p : Nat × String) : List (Nat × String) → List (Nat × String)
  | [] => [p]
  | q :: qs => if p.1 ≤ q.1 then p :: q :: qs else q :: insertByIdx p qs

/-- Model of chunk_files.sort with the first-component key (line 210):
a stable comparison sort by index. -/
def sortByIdx : List (Nat × String) → List (Nat × String)
  | [] => []
  | p :: ps => insertByIdx p (sortByIdx ps)

/-- Result of _merge_chunks: the boolean it returns, the filesystem
afterwards, and the manifest path it wrote. -/
structure MergeResult where
  ok : Bool
  fs : FS
  manifestPath : String
  manifestLines : List String

/-- Model of _merge_chunks (lines 110-147): writes the concat list file
naming the given files in order, runs ffmpeg concat (success writes the
output; non-zero exit returns False; a thrown exception is caught and
returns False), and in the finally block unlinks the list file. -/
def merge_chunks (cacheDir : String) (pid : Nat) (files : List String)
    (outcome : ConcatOutcome) (fs : FS) : MergeResult :=
  let fs1 : FS := { fs with manifestExists := true }
  let step : Bool × FS :=
    match outcome with
    | .ok => (true, { fs1 with outputExists := true })
    | .exitNonzero => (false, fs1)
    | .raised => (false, fs1)
  { ok := step.1,
    fs := { step.2 with manifestExists := false },
    manifestPath := concatListPath cacheDir pid,
    manifestLines := files }

/-- Result of one download_segment_parallel call, with the events the
claims mention recorded alongside the returned boolean. -/
structure RunResult where
  ok : Bool
  fs : FS
  usedChunked : Bool
  singleCalls : Nat
  plannedChunks : Nat
  mergeInvoked : Bool
  concatArg : List String
  tempDirUsed : Option String

/-- Model of Downloader.download_segment_parallel (lines 149-224).
If total duration < 30 or max_workers ≤ 1, one direct
ffmpeg_handler.download_segment call is made (an exception is caught
and yields False).  Otherwise the chunked path plans max_workers
chunks, runs the executor, fails when the flag is down or fewer than
max_workers successes were collected, else sorts by index and merges;
the finally block removes the temp directory on every chunked exit. -/
def download_segment_parallel (env : Env) (maxWorkers : Int)
    (startTime endTime : ℚ) (cacheDir : String) (pid : Nat) (fs0 : FS) :
    RunResult :=
  let totalDuration := endTime - startTime
  if totalDuration < 30 ∨ maxWorkers ≤ 1 then
    { ok := env.singleOk,
      fs := if env.singleOk then { fs0 with outputExists := true } else fs0,
      usedChunked := false, singleCalls := 1, plannedChunks := 0,
      mergeInvoked := false, concatArg := [], tempDirUsed := none }
  else
    let n := maxWorkers.toNat
    let tempDir := tempDirPath cacheDir pid
    let fs1 : FS := { fs0 with tempDirExists := true }
    let chunks := planChunks startTime endTime n tempDir
    let exec := runExecutor env.worker env.completion tempDir
    if exec.successFlag = true ∧ exec.collected.length = n then
      let ordered := (sortByIdx exec.collected).map Prod.snd
      let m := merge_chunks cacheDir pid ordered env.concatOutcome fs1
      { ok := m.ok,
        fs := { m.fs with tempDirExists := false },
        usedChunked := true, singleCalls := 0,
        plannedChunks := chunks.length,
        mergeInvoked := true, concatArg := ordered,
        tempDirUsed := some tempDir }
    else
      { ok := false,
        fs := { fs1 with tempDirExists := false },
        usedChunked := true, singleCalls := 0,
        plannedChunks := chunks.length,
        mergeInvoked := false, concatArg := [],
        tempDirUsed := some tempDir }

/-- Model of Downloader.batch_download_segments (lines 230-245): the
sequential loop over segments, index i using oracle envs i; each
iteration appends (output, success) whatever the outcome. -/
def batchGo (envs : Nat → Env) (maxWorkers : Int) (cacheDir : String)
    (pid : Nat) (fs0 : FS) :
    Nat → List (ℚ × ℚ × String) → List (String × Bool)
  | _, [] => []
  | i, (s, e, out) :: rest =>
      (out, (download_segment_parallel (envs i) maxWorkers s e cacheDir pid fs0).ok)
        :: batchGo envs maxWorkers cacheDir pid fs0 (i + 1) rest

/-- Entry point of the batch loop. -/
def batch_download_segments (envs : Nat → Env) (maxWorkers : Int)
    (cacheDir : String) (pid : Nat) (fs0 : FS)
    (segments : List (ℚ × ℚ × String)) : List (String × Bool) :=
  batchGo envs maxWorkers cacheDir pid fs0 0 segments

/- ===================================================================
   Facts about the index sort used by the reassembly step.
   =================================================================== -/

/-- Strict comparison of (index, path) pairs by index. -/
def idxLt (a b : Nat × String) : Prop := a.1 < b.1

instance : IsAntisymm (Nat × String) idxLt :=
  ⟨fun a _ h1 h2 => absurd (h1.trans h2) (lt_irrefl a.1)⟩

theorem insertByIdx_perm (p : Nat × String) (l : List (Nat × String)) :
    (insertByIdx p l).Perm (p :: l) := by
  induction l with
  | nil => exact List.Perm.refl _
  | cons q qs ih =>
      simp only [insertByIdx]
      by_cases hpq : p.1 ≤ q.1
      · rw [if_pos hpq]
      · rw [if_neg hpq]
        exact (ih.cons q).trans (List.Perm.swap p q qs)

theorem sortByIdx_perm (l : List (Nat × String)) : (sortByIdx l).Perm l := by
  induction l with
  | nil => exact List.Perm.refl _
  | cons p ps ih =>
      exact (insertByIdx_perm p (sortByIdx ps)).trans (ih.cons p)

theorem insertByIdx_pairwise (p : Nat × String) (l : List (Nat × String))
    (h : l.Pairwise (fun a b => a.1 ≤ b.1)) :
    (insertByIdx p l).Pairwise (fun a b => a.1 ≤ b.1) := by
  induction l with
  | nil => simp [insertByIdx]
  | cons q qs ih =>
      rw [List.pairwise_cons] at h
      obtain ⟨hq, hqs⟩ := h
      simp only [insertByIdx]
      by_cases hpq : p.1 ≤ q.1
      · rw [if_pos hpq]
        refine List.Pairwise.cons ?_ (List.Pairwise.cons hq hqs)
        intro x hx
        rcases List.mem_cons.mp hx with h1 | h2
        · subst h1; exact hpq
        · exact le_trans hpq (hq x h2)
      · rw [if_neg hpq]
        have hqp : q.1 ≤ p.1 := le_of_lt (not_le.mp hpq)
        refine List.Pairwise.cons ?_ (ih hqs)
        intro x hx
        have hx2 : x ∈ p :: qs := (insertByIdx_perm p qs).mem_iff.mp hx
        rcases List.mem_cons.mp hx2 with h1 | h2
        · subst h1; exact hqp
        · exact hq x h2

theorem sortByIdx_sorted (l : List (Nat × String)) :
    (sortByIdx l).Pairwise (fun a b => a.1 ≤ b.1) := by
  induction l with
  | nil => simp [sortByIdx]
  | cons p ps ih => exact insertByIdx_pairwise p (sortByIdx ps) ih

/-- Sorting any permutation of the canonical indexed list by index
recovers the canonical order: the result is independent of completion
order. -/
theorem sortByIdx_eq_of_perm {n : Nat} {f : Nat → String} {l : List (Nat × String)}
    (h : l.Perm ((List.range n).map (fun i => (i, f i)))) :
    sortByIdx l = (List.range n).map (fun i => (i, f i)) := by
  have hperm : (sortByIdx l).Perm ((List.range n).map (fun i => (i, f i))) :=
    (sortByIdx_perm l).trans h
  have hnd : ((sortByIdx l).map Prod.fst).Nodup := by
    have htnd : (((List.range n).map (fun i => (i, f i))).map Prod.fst).Nodup := by
      simp only [List.map_map]
      have : (Prod.fst ∘ fun i => (i, f i)) = fun (i : Nat) => i := rfl
      rw [this]
      simpa using List.nodup_range n
    exact (hperm.map Prod.fst).symm.nodup htnd
  have hlt : (sortByIdx l).Pairwise idxLt := by
    have h1 := sortByIdx_sorted l
    have h2 : (sortByIdx l).Pairwise (fun a b => a.1 ≠ b.1) :=
      List.pairwise_map.mp hnd
    exact (h1.and h2).imp (fun hab => lt_of_le_of_ne hab.1 hab.2)
  have htlt : ((List.range n).map (fun i => (i, f i))).Pairwise idxLt := by
    rw [List.pairwise_map]
    simpa [idxLt] using List.pairwise_lt_range n
  exact List.eq_of_perm_of_sorted hperm hlt htlt

/- ===================================================================
   Shared concrete values for witnesses.
   =================================================================== -/

/-- An initially clean filesystem. -/
def fsClean : FS := { tempDirExists := false, manifestExists := false, outputExists := false }

/-- A default chunk value for getD. -/
def cdflt : ChunkTask := { start := 0, duration := 0, path := ("") }

/-- An environment whose chunks all succeed, completing out of order. -/
def envAllOk : Env :=
  { worker := fun _ => .ok, completion := [2, 0, 1], concatOutcome := .ok, singleOk := true }

/- ===================================================================
   Claims.
   =================================================================== -/

/-- C1: for every permutation of chunk completion order, the path list
handed to the concatenation step by download_segment_parallel is the
chunk paths sorted by chunk index ascending — reassembly order is
determined solely by the index and is invariant under completion
order. -/
theorem reassembly_order_invariant (env : Env) (mw : Int) (s e : ℚ)
    (cd : String) (pid : Nat) (fs0 : FS)
    (hmw : 1 < mw) (hdur : 30 ≤ e - s)
    (hperm : env.completion.Perm (List.range mw.toNat))
    (hall : ∀ i, i < mw.toNat → env.worker i = .ok) :
    (download_segment_parallel env mw s e cd pid fs0).concatArg
      = (List.range mw.toNat).map (chunkFilePath (tempDirPath cd pid)) := by
  have hcond : ¬(e - s < 30 ∨ mw ≤ 1) := by push_neg; exact ⟨hdur, hmw⟩
  have hfilter : env.completion.filter (fun i => env.worker i == .ok) = env.completion := by
    rw [List.filter_eq_self]
    intro a ha
    have := hall a (List.mem_range.mp (hperm.mem_iff.mp ha))
    simp [this]
  have hcol : (runExecutor env.worker env.completion (tempDirPath cd pid)).collected
      = env.completion.map (fun i => (i, chunkFilePath (tempDirPath cd pid) i)) := by
    simp only [runExecutor]
    rw [hfilter]
  have hflag : (runExecutor env.worker env.completion (tempDirPath cd pid)).successFlag = true := by
    simp only [runExecutor]
    rw [List.all_eq_true]
    intro x hx
    have := hall x (List.mem_range.mp (hperm.mem_iff.mp hx))
    simp [this]
  have hlen : (runExecutor env.worker env.completion (tempDirPath cd pid)).collected.length
      = mw.toNat := by
    rw [hcol]
    simp [hperm.length_eq]
  have hsort : sortByIdx (runExecutor env.worker env.completion (tempDirPath cd pid)).collected
      = (List.range mw.toNat).map (fun i => (i, chunkFilePath (tempDirPath cd pid) i)) := by
    rw [hcol]
    exact sortByIdx_eq_of_perm (hperm.map _)
  simp only [download_segment_parallel]
  rw [if_neg hcond, if_pos ⟨hflag, hlen⟩]
  simp only []
  rw [hsort]
  simp [List.map_map, Function.comp]

/-- C1 witness: three chunks completing in order 2, 0, 1 are still
concatenated in index order. -/
theorem reassembly_order_invariant_witness :
    (download_segment_parallel envAllOk 3 0 90 ("C") 7 fsClean).concatArg
      = (List.range (Int.toNat 3)).map (chunkFilePath (tempDirPath ("C") 7)) :=
  reassembly_order_invariant envAllOk 3 0 90 ("C") 7 fsClean
    (by norm_num) (by norm_num) (by decide) (by decide)

/-- Element access into the chunk plan. -/
theorem planChunks_getD (s e : ℚ) (n : Nat) (td : String) (i : Nat) (h : i < n)
    (d : ChunkTask) :
    (planChunks s e n td).getD i d
      = { start := s + (i : ℚ) * ((e - s) / n), duration := (e - s) / n,
          path := chunkFilePath td i } := by
  unfold planChunks
  rw [List.getD_eq_getElem?_getD, List.getElem?_map, List.getElem?_range h]
  rfl

/-- C2: for end > start and N ≥ 1 the planner yields exactly N chunks,
chunk i starting at start + i·((end−start)/N) with duration
(end−start)/N, contiguous and non-overlapping, and the last chunk's end
equals the requested end (exactly in exact arithmetic, hence within the
1e-6 tolerance). -/
theorem planner_partition (s e : ℚ) (n : Nat) (td : String) (d : ChunkTask)
    (hn : 1 ≤ n) (hse : s < e) :
    (planChunks s e n td).length = n
    ∧ (∀ i, i < n → (planChunks s e n td).getD i d =
        { start := s + (i : ℚ) * ((e - s) / n), duration := (e - s) / n,
          path := chunkFilePath td i })
    ∧ (∀ i, i + 1 < n →
        ((planChunks s e n td).getD i d).start + ((planChunks s e n td).getD i d).duration
          = ((planChunks s e n td).getD (i + 1) d).start)
    ∧ ((planChunks s e n td).getD (n - 1) d).start
        + ((planChunks s e n td).getD (n - 1) d).duration = e
    ∧ |((planChunks s e n td).getD (n - 1) d).start
        + ((planChunks s e n td).getD (n - 1) d).duration - e| ≤ 1 / 1000000 := by
  have hn0 : (n : ℚ) ≠ 0 := Nat.cast_ne_zero.mpr (by omega)
  have hlast : ((planChunks s e n td).getD (n - 1) d).start
      + ((planChunks s e n td).getD (n - 1) d).duration = e := by
    rw [planChunks_getD s e n td (n - 1) (by omega) d]
    simp only []
    rw [Nat.cast_sub hn]
    push_cast
    field_simp
    ring
  refine ⟨by simp [planChunks], fun i hi => planChunks_getD s e n td i hi d, ?_, hlast, ?_⟩
  · intro i hi
    rw [planChunks_getD s e n td i (by omega) d, planChunks_getD s e n td (i + 1) hi d]
    simp only []
    push_cast
    ring
  · rw [hlast]
    simp

/-- C2 witness: a 31-second range split four ways. -/
theorem planner_partition_witness :
    (planChunks 0 31 4 ("T")).length = 4
    ∧ (∀ i, i < 4 → (planChunks 0 31 4 ("T")).getD i cdflt =
        { start := 0 + (i : ℚ) * ((31 - 0) / 4), duration := (31 - 0) / 4,
          path := chunkFilePath ("T") i })
    ∧ (∀ i, i + 1 < 4 →
        ((planChunks 0 31 4 ("T")).getD i cdflt).start
            + ((planChunks 0 31 4 ("T")).getD i cdflt).duration
          = ((planChunks 0 31 4 ("T")).getD (i + 1) cdflt).start)
    ∧ ((planChunks 0 31 4 ("T")).getD (4 - 1) cdflt).start
        + ((planChunks 0 31 4 ("T")).getD (4 - 1) cdflt).duration = 31
    ∧ |((planChunks 0 31 4 ("T")).getD (4 - 1) cdflt).start
        + ((planChunks 0 31 4 ("T")).getD (4 - 1) cdflt).duration - 31| ≤ 1 / 1000000 :=
  planner_partition 0 31 4 ("T") cdflt (by norm_num) (by norm_num)

/-- A failing environment for witnesses: chunk 1 fails, the rest
succeed; completion order is reversed. -/
def envOneFail : Env :=
  { worker := fun i => if i = 1 then .fail else .ok,
    completion := [2, 1, 0], concatOutcome := .ok, singleOk := true }

/-- A worker map where index 1 raises and the rest succeed. -/
def wRaise : Nat → WOutcome := fun i => if i = 1 then .raised else .ok

/-- C3: on the chunked path, one failed chunk makes
download_segment_parallel return false, the merge step is never
invoked so no output file appears, and the temp chunk directory is
gone when the call returns. -/
theorem chunk_failure_all_or_nothing (env : Env) (mw : Int) (s e : ℚ)
    (cd : String) (pid : Nat) (fs0 : FS)
    (hmw : 1 < mw) (hdur : 30 ≤ e - s)
    (hperm : env.completion.Perm (List.range mw.toNat))
    (hfail : ∃ i, i < mw.toNat ∧ env.worker i ≠ .ok)
    (hout : fs0.outputExists = false) :
    (download_segment_parallel env mw s e cd pid fs0).ok = false
    ∧ (download_segment_parallel env mw s e cd pid fs0).mergeInvoked = false
    ∧ (download_segment_parallel env mw s e cd pid fs0).fs.tempDirExists = false
    ∧ (download_segment_parallel env mw s e cd pid fs0).fs.outputExists = false := by
  obtain ⟨i, hi, hne⟩ := hfail
  have hcond : ¬(e - s < 30 ∨ mw ≤ 1) := by push_neg; exact ⟨hdur, hmw⟩
  have hflag : (runExecutor env.worker env.completion (tempDirPath cd pid)).successFlag
      = false := by
    simp only [runExecutor]
    have hmem : i ∈ env.completion := hperm.mem_iff.mpr (List.mem_range.mpr hi)
    rcases hb : env.completion.all (fun j => env.worker j == .ok) with _ | _
    · rfl
    · exfalso
      have := List.all_eq_true.mp hb i hmem
      simp at this
      exact hne this
  have hguard : ¬((runExecutor env.worker env.completion (tempDirPath cd pid)).successFlag = true
      ∧ (runExecutor env.worker env.completion (tempDirPath cd pid)).collected.length
          = mw.toNat) := by
    rintro ⟨h1, -⟩
    rw [hflag] at h1
    exact Bool.false_ne_true h1
  simp only [download_segment_parallel]
  rw [if_neg hcond, if_neg hguard]
  exact ⟨rfl, rfl, rfl, hout⟩

/-- C3 witness: four chunks, chunk 1 fails. -/
theorem chunk_failure_all_or_nothing_witness :
    (download_segment_parallel envOneFail 3 0 90 ("C") 7 fsClean).ok = false
    ∧ (download_segment_parallel envOneFail 3 0 90 ("C") 7 fsClean).mergeInvoked = false
    ∧ (download_segment_parallel envOneFail 3 0 90 ("C") 7 fsClean).fs.tempDirExists = false
    ∧ (download_segment_parallel envOneFail 3 0 90 ("C") 7 fsClean).fs.outputExists = false :=
  chunk_failure_all_or_nothing envOneFail 3 0 90 ("C") 7 fsClean
    (by norm_num) (by norm_num) (by decide) ⟨1, by decide⟩ rfl

/-- C4: the executor records one outcome per dispatched future (a
raising worker becomes a failed result for its index, nothing
propagates, no sibling is cancelled), its flag is up iff every worker
succeeded, and fewer than N collected successes fails the whole
segment job. -/
theorem executor_aggregation (worker : Nat → WOutcome) (completion : List Nat)
    (td : String) (n : Nat) (hperm : completion.Perm (List.range n)) :
    ((runExecutor worker completion td).successFlag = true ↔ ∀ i, i < n → worker i = .ok)
    ∧ (runExecutor worker completion td).results.length = n
    ∧ (∀ i, i < n → (i, worker i == WOutcome.ok) ∈ (runExecutor worker completion td).results)
    ∧ ((runExecutor worker completion td).collected.length < n →
        (runExecutor worker completion td).successFlag = false)
    ∧ (∀ env maxWorkers (s e : ℚ) cd pid fs0, env.worker = worker
        → env.completion = completion → Int.toNat maxWorkers = n
        → 1 < maxWorkers → 30 ≤ e - s
        → (runExecutor worker completion td).collected.length < n
        → (download_segment_parallel env maxWorkers s e cd pid fs0).ok = false) := by
  have hiff : (runExecutor worker completion td).successFlag = true
      ↔ ∀ i, i < n → worker i = .ok := by
    simp only [runExecutor]
    rw [List.all_eq_true]
    constructor
    · intro h i hi
      have := h i (hperm.mem_iff.mpr (List.mem_range.mpr hi))
      simpa using this
    · intro h x hx
      have := h x (List.mem_range.mp (hperm.mem_iff.mp hx))
      simp [this]
  have hcollen : ∀ td2 : String, (runExecutor worker completion td2).collected.length
      = (completion.filter (fun i => worker i == .ok)).length := by
    intro td2
    simp [runExecutor]
  refine ⟨hiff, ?_, ?_, ?_, ?_⟩
  · simp [runExecutor, hperm.length_eq]
  · intro i hi
    simp only [runExecutor]
    exact List.mem_map.mpr ⟨i, hperm.mem_iff.mpr (List.mem_range.mpr hi), rfl⟩
  · intro hlt
    rcases hb : (runExecutor worker completion td).successFlag with _ | _
    · rfl
    · exfalso
      have hall := hiff.mp hb
      have hfe : completion.filter (fun i => worker i == .ok) = completion := by
        rw [List.filter_eq_self]
        intro a ha
        have := hall a (List.mem_range.mp (hperm.mem_iff.mp ha))
        simp [this]
      rw [hcollen td, hfe, hperm.length_eq, List.length_range] at hlt
      exact lt_irrefl n hlt
  · intro env maxWorkers s e cd pid fs0 hw hc hn hmw hdur hlt
    have hcond : ¬(e - s < 30 ∨ maxWorkers ≤ 1) := by push_neg; exact ⟨hdur, hmw⟩
    have hguard : ¬((runExecutor env.worker env.completion (tempDirPath cd pid)).successFlag
          = true
        ∧ (runExecutor env.worker env.completion (tempDirPath cd pid)).collected.length
          = maxWorkers.toNat) := by
      rintro ⟨-, h2⟩
      rw [hw, hc, hcollen (tempDirPath cd pid)] at h2
      rw [hcollen td, h2, hn] at hlt
      exact lt_irrefl n hlt
    simp only [download_segment_parallel]
    rw [if_neg hcond, if_neg hguard]

/-- C4 witness: two chunks, worker 1 raises; completion order reversed. -/
theorem executor_aggregation_witness :
    ((runExecutor wRaise [1, 0] ("T")).successFlag = true ↔ ∀ i, i < 2 → wRaise i = .ok)
    ∧ (runExecutor wRaise [1, 0] ("T")).results.length = 2
    ∧ (∀ i, i < 2 → (i, wRaise i == WOutcome.ok) ∈ (runExecutor wRaise [1, 0] ("T")).results)
    ∧ ((runExecutor wRaise [1, 0] ("T")).collected.length < 2 →
        (runExecutor wRaise [1, 0] ("T")).successFlag = false)
    ∧ (∀ env maxWorkers (s e : ℚ) cd pid fs0, env.worker = wRaise
        → env.completion = [1, 0] → Int.toNat maxWorkers = 2
        → 1 < maxWorkers → 30 ≤ e - s
        → (runExecutor wRaise [1, 0] ("T")).collected.length < 2
        → (download_segment_parallel env maxWorkers s e cd pid fs0).ok = false) :=
  executor_aggregation wRaise [1, 0] ("T") 2 (by decide)

/-- C5: a range under 30 seconds or parallelism at most 1 makes exactly
one direct download call and never engages the chunk machinery;
otherwise the chunked path plans exactly maxWorkers chunks. -/
theorem threshold_policy (env : Env) (mw : Int) (s e : ℚ) (cd : String)
    (pid : Nat) (fs0 : FS) :
    ((e - s < 30 ∨ mw ≤ 1) →
      (download_segment_parallel env mw s e cd pid fs0).usedChunked = false
      ∧ (download_segment_parallel env mw s e cd pid fs0).singleCalls = 1
      ∧ (download_segment_parallel env mw s e cd pid fs0).plannedChunks = 0)
    ∧ (30 ≤ e - s → 1 < mw →
      (download_segment_parallel env mw s e cd pid fs0).usedChunked = true
      ∧ (download_segment_parallel env mw s e cd pid fs0).singleCalls = 0
      ∧ (download_segment_parallel env mw s e cd pid fs0).plannedChunks = mw.toNat) := by
  constructor
  · intro h
    simp only [download_segment_parallel]
    rw [if_pos h]
    exact ⟨rfl, rfl, rfl⟩
  · intro h1 h2
    have hcond : ¬(e - s < 30 ∨ mw ≤ 1) := by push_neg; exact ⟨h1, h2⟩
    simp only [download_segment_parallel]
    rw [if_neg hcond]
    by_cases hc : (runExecutor env.worker env.completion (tempDirPath cd pid)).successFlag = true
        ∧ (runExecutor env.worker env.completion (tempDirPath cd pid)).collected.length
          = mw.toNat
    · rw [if_pos hc]
      exact ⟨rfl, rfl, by simp [planChunks]⟩
    · rw [if_neg hc]
      exact ⟨rfl, rfl, by simp [planChunks]⟩

/-- C5 witness: 29 seconds stays on the single path; 31 seconds with
parallelism 4 plans exactly 4 chunks. -/
theorem threshold_policy_witness :
    ((download_segment_parallel envAllOk 4 0 29 ("C") 1 fsClean).usedChunked = false
      ∧ (download_segment_parallel envAllOk 4 0 29 ("C") 1 fsClean).singleCalls = 1
      ∧ (download_segment_parallel envAllOk 4 0 29 ("C") 1 fsClean).plannedChunks = 0)
    ∧ ((download_segment_parallel envAllOk 4 0 31 ("C") 1 fsClean).usedChunked = true
      ∧ (download_segment_parallel envAllOk 4 0 31 ("C") 1 fsClean).singleCalls = 0
      ∧ (download_segment_parallel envAllOk 4 0 31 ("C") 1 fsClean).plannedChunks
          = Int.toNat 4) :=
  ⟨(threshold_policy envAllOk 4 0 29 ("C") 1 fsClean).1 (by norm_num),
   (threshold_policy envAllOk 4 0 31 ("C") 1 fsClean).2 (by norm_num) (by norm_num)⟩

/-- An environment where all chunks download but the concat subprocess
throws (the ConcatFailed simulation). -/
def envConcatRaise : Env :=
  { worker := fun _ => .ok, completion := [0, 1, 2], concatOutcome := .raised, singleOk := true }

/-- C6: on every exit of the merge step — success, non-zero engine
exit, or a thrown error — the manifest file is gone when merge_chunks
returns, and on the chunked path the temp chunk directory is gone when
download_segment_parallel returns, whatever the concat outcome. -/
theorem merge_cleanup_all_paths (cd : String) (pid : Nat) (files : List String)
    (oc : ConcatOutcome) (fs : FS) (env : Env) (mw : Int) (s e : ℚ) (fs0 : FS)
    (hmw : 1 < mw) (hdur : 30 ≤ e - s) (hm : fs0.manifestExists = false) :
    (merge_chunks cd pid files oc fs).fs.manifestExists = false
    ∧ (download_segment_parallel env mw s e cd pid fs0).fs.manifestExists = false
    ∧ (download_segment_parallel env mw s e cd pid fs0).fs.tempDirExists = false := by
  have hcond : ¬(e - s < 30 ∨ mw ≤ 1) := by push_neg; exact ⟨hdur, hmw⟩
  refine ⟨rfl, ?_, ?_⟩
  · simp only [download_segment_parallel]
    rw [if_neg hcond]
    by_cases hc : (runExecutor env.worker env.completion (tempDirPath cd pid)).successFlag = true
        ∧ (runExecutor env.worker env.completion (tempDirPath cd pid)).collected.length
          = mw.toNat
    · rw [if_pos hc]; rfl
    · rw [if_neg hc]; exact hm
  · simp only [download_segment_parallel]
    rw [if_neg hcond]
    by_cases hc : (runExecutor env.worker env.completion (tempDirPath cd pid)).successFlag = true
        ∧ (runExecutor env.worker env.completion (tempDirPath cd pid)).collected.length
          = mw.toNat
    · rw [if_pos hc]
    · rw [if_neg hc]

/-- C6 witness: the concat subprocess throws; neither the manifest nor
the temp directory survives. -/
theorem merge_cleanup_all_paths_witness :
    (merge_chunks ("C") 7 [] ConcatOutcome.raised fsClean).fs.manifestExists = false
    ∧ (download_segment_parallel envConcatRaise 3 0 90 ("C") 7 fsClean).fs.manifestExists = false
    ∧ (download_segment_parallel envConcatRaise 3 0 90 ("C") 7 fsClean).fs.tempDirExists
        = false :=
  merge_cleanup_all_paths ("C") 7 [] ConcatOutcome.raised fsClean envConcatRaise 3 0 90 fsClean
    (by norm_num) (by norm_num) rfl

/-- batchGo produces one result per segment. -/
theorem batchGo_length (envs : Nat → Env) (mw : Int) (cd : String) (pid : Nat)
    (fs0 : FS) (k : Nat) (segs : List (ℚ × ℚ × String)) :
    (batchGo envs mw cd pid fs0 k segs).length = segs.length := by
  induction segs generalizing k with
  | nil => rfl
  | cons hd tl ih =>
      obtain ⟨s, e, out⟩ := hd
      simp [batchGo, ih]

/-- The i-th batch result is the i-th segment's (output, success). -/
theorem batchGo_getD (envs : Nat → Env) (mw : Int) (cd : String) (pid : Nat)
    (fs0 : FS) (segs : List (ℚ × ℚ × String)) (k i : Nat) (h : i < segs.length) :
    (batchGo envs mw cd pid fs0 k segs).getD i (("", false))
      = ((segs.getD i (0, 0, (""))).2.2,
         (download_segment_parallel (envs (k + i)) mw (segs.getD i (0, 0, (""))).1
           (segs.getD i (0, 0, (""))).2.1 cd pid fs0).ok) := by
  induction segs generalizing k i with
  | nil => exact absurd h (by simp)
  | cons hd tl ih =>
      obtain ⟨s, e, out⟩ := hd
      cases i with
      | zero => simp [batchGo]
      | succ j =>
          have hj : j < tl.length := by simpa using h
          have hk : k + 1 + j = k + (j + 1) := by omega
          simp only [batchGo, List.getD_cons_succ]
          rw [ih (k + 1) j hj, hk]

/-- C7: batch_download_segments processes the k segments strictly in
list order, never aborts early on a failure, and returns exactly k
results whose i-th entry is (outputName_i, success_i). -/
theorem batch_sequential_results (envs : Nat → Env) (mw : Int) (cd : String)
    (pid : Nat) (fs0 : FS) (segments : List (ℚ × ℚ × String)) :
    (batch_download_segments envs mw cd pid fs0 segments).length = segments.length
    ∧ (∀ i, i < segments.length →
        (batch_download_segments envs mw cd pid fs0 segments).getD i (("", false))
          = ((segments.getD i (0, 0, (""))).2.2,
             (download_segment_parallel (envs i) mw (segments.getD i (0, 0, (""))).1
               (segments.getD i (0, 0, (""))).2.1 cd pid fs0).ok)) := by
  constructor
  · exact batchGo_length envs mw cd pid fs0 0 segments
  · intro i hi
    have := batchGo_getD envs mw cd pid fs0 segments 0 i hi
    simpa using this

/-- Per-segment environments for the C7 witness: segment 1 fails on the
single-download path, the others succeed. -/
def envsBatch : Nat → Env := fun i =>
  { worker := fun _ => .ok, completion := [], concatOutcome := .ok, singleOk := i ≠ 1 }

/-- Segments for the C7 witness. -/
def segsBatch : List (ℚ × ℚ × String) := [(0, 10, ("a")), (0, 10, ("b")), (0, 10, ("c"))]

/-- C7 witness: three segments where segment 2 fails; segment 3 is
still attempted and reported, and the result list has length 3. -/
theorem batch_sequential_results_witness :
    (batch_download_segments envsBatch 1 ("C") 7 fsClean segsBatch).length = segsBatch.length
    ∧ (batch_download_segments envsBatch 1 ("C") 7 fsClean segsBatch).getD 1 (("", false))
        = ((segsBatch.getD 1 (0, 0, (""))).2.2,
           (download_segment_parallel (envsBatch 1) 1 (segsBatch.getD 1 (0, 0, (""))).1
             (segsBatch.getD 1 (0, 0, (""))).2.1 ("C") 7 fsClean).ok)
    ∧ (batch_download_segments envsBatch 1 ("C") 7 fsClean segsBatch).getD 2 (("", false))
        = ((segsBatch.getD 2 (0, 0, (""))).2.2,
           (download_segment_parallel (envsBatch 2) 1 (segsBatch.getD 2 (0, 0, (""))).1
             (segsBatch.getD 2 (0, 0, (""))).2.1 ("C") 7 fsClean).ok) :=
  ⟨(batch_sequential_results envsBatch 1 ("C") 7 fsClean segsBatch).1,
   (batch_sequential_results envsBatch 1 ("C") 7 fsClean segsBatch).2 1 (by decide),
   (batch_sequential_results envsBatch 1 ("C") 7 fsClean segsBatch).2 2 (by decide)⟩

/-- C8 counterexample: with workerCount 0 (< 1) and a 100-second range,
download_segment_parallel signals no configuration error at all — it
silently takes the single direct download path and succeeds. -/
theorem low_workers_config_error_cex :
    (download_segment_parallel envAllOk 0 0 100 ("C") 1 fsClean).ok = true
    ∧ (download_segment_parallel envAllOk 0 0 100 ("C") 1 fsClean).usedChunked = false
    ∧ (download_segment_parallel envAllOk 0 0 100 ("C") 1 fsClean).singleCalls = 1 := by
  have hcond : (100 : ℚ) - 0 < 30 ∨ (0 : Int) ≤ 1 := Or.inr (by norm_num)
  have h : download_segment_parallel envAllOk 0 0 100 ("C") 1 fsClean
      = { ok := true,
          fs := { tempDirExists := false, manifestExists := false, outputExists := true },
          usedChunked := false, singleCalls := 1, plannedChunks := 0,
          mergeInvoked := false, concatArg := [], tempDirUsed := none } := by
    simp only [download_segment_parallel]
    rw [if_pos hcond]
    rfl
  exact ⟨by rw [h], by rw [h], by rw [h]⟩

/-- C8 amended: for workerCount < 1 no error is signalled and N is not
clamped: the facade silently falls back to exactly one direct
single-download call (no chunks planned), returning that call's
outcome. -/
theorem low_workers_silent_fallback (env : Env) (mw : Int) (s e : ℚ)
    (cd : String) (pid : Nat) (fs0 : FS) (h : mw < 1) :
    (download_segment_parallel env mw s e cd pid fs0).usedChunked = false
    ∧ (download_segment_parallel env mw s e cd pid fs0).singleCalls = 1
    ∧ (download_segment_parallel env mw s e cd pid fs0).plannedChunks = 0
    ∧ (download_segment_parallel env mw s e cd pid fs0).ok = env.singleOk := by
  have hcond : e - s < 30 ∨ mw ≤ 1 := Or.inr (by omega)
  simp only [download_segment_parallel]
  rw [if_pos hcond]
  exact ⟨rfl, rfl, rfl, rfl⟩

/-- C8 amended witness: workerCount 0 on a 100-second range. -/
theorem low_workers_silent_fallback_witness :
    (download_segment_parallel envAllOk 0 0 100 ("C") 1 fsClean).usedChunked = false
    ∧ (download_segment_parallel envAllOk 0 0 100 ("C") 1 fsClean).singleCalls = 1
    ∧ (download_segment_parallel envAllOk 0 0 100 ("C") 1 fsClean).plannedChunks = 0
    ∧ (download_segment_parallel envAllOk 0 0 100 ("C") 1 fsClean).ok = envAllOk.singleOk :=
  low_workers_silent_fallback envAllOk 0 0 100 ("C") 1 fsClean (by norm_num)

/-- A probe whose metadata carries a JSON null as format.duration. -/
def probeNullDuration : ProbeEnv :=
  { subprocessError := false, returncode := 0,
    stdoutJson := some (.jobj [(("format"), .jobj [(("duration"), .jnull)])]) }

/-- C9 counterexample: a successful probe whose format.duration is JSON
null makes get_duration raise an uncaught TypeError — float(None) is
neither a KeyError nor a ValueError, the only exceptions caught — so
get_duration is not total and does not return 0.0 on this failure. -/
theorem get_duration_typeerror_cex :
    get_duration probeNullDuration = .error .typeError := by
  rfl

/-- C9 amended: get_duration never raises and is total — provided
every truthy metadata value is a JSON object whose format field, if
present, is an object whose duration field, if present, is a number,
boolean or string — and returns exactly 0.0 on probe failure, falsy
metadata, a missing format or duration key, and an unparseable
duration string; it returns the numeric duration value itself, a
boolean duration as 1.0/0.0, and a parseable string's parsed value;
while any non-object truthy metadata, non-object format value, or
null/array/object duration value instead raises an uncaught
TypeError. -/
theorem get_duration_total_amended (e : ProbeEnv) :
    ((∀ info, get_video_info e = some info → shapeOk info = true) →
        ∃ q, get_duration e = .ok q)
    ∧ (get_video_info e = none → get_duration e = .ok 0)
    ∧ (∀ info, get_video_info e = some info → truthy info = false →
        get_duration e = .ok 0)
    ∧ (∀ fields, get_video_info e = some (.jobj fields) →
        truthy (.jobj fields) = true →
        fields.lookup ("format") = none →
        get_duration e = .ok 0)
    ∧ (∀ fields fs2, get_video_info e = some (.jobj fields) →
        truthy (.jobj fields) = true →
        fields.lookup ("format") = some (.jobj fs2) →
        fs2.lookup ("duration") = none →
        get_duration e = .ok 0)
    ∧ (∀ fields fs2 q, get_video_info e = some (.jobj fields) →
        truthy (.jobj fields) = true →
        fields.lookup ("format") = some (.jobj fs2) →
        fs2.lookup ("duration") = some (.jnum q) →
        get_duration e = .ok q)
    ∧ (∀ fields fs2 b, get_video_info e = some (.jobj fields) →
        truthy (.jobj fields) = true →
        fields.lookup ("format") = some (.jobj fs2) →
        fs2.lookup ("duration") = some (.jbool b) →
        get_duration e = .ok (if b then 1 else 0))
    ∧ (∀ fields fs2 str q, get_video_info e = some (.jobj fields) →
        truthy (.jobj fields) = true →
        fields.lookup ("format") = some (.jobj fs2) →
        fs2.lookup ("duration") = some (.jstr str) →
        parsePyFloat str = some q →
        get_duration e = .ok q)
    ∧ (∀ fields fs2 str, get_video_info e = some (.jobj fields) →
        truthy (.jobj fields) = true →
        fields.lookup ("format") = some (.jobj fs2) →
        fs2.lookup ("duration") = some (.jstr str) →
        parsePyFloat str = none →
        get_duration e = .ok 0)
    ∧ (∀ info, get_video_info e = some info → truthy info = true →
        (∀ fields, info ≠ .jobj fields) →
        get_duration e = .error .typeError)
    ∧ (∀ fields fmt, get_video_info e = some (.jobj fields) →
        truthy (.jobj fields) = true →
        fields.lookup ("format") = some fmt →
        (∀ fs2, fmt ≠ .jobj fs2) →
        get_duration e = .error .typeError)
    ∧ (∀ fields fs2 d, get_video_info e = some (.jobj fields) →
        truthy (.jobj fields) = true →
        fields.lookup ("format") = some (.jobj fs2) →
        fs2.lookup ("duration") = some d →
        safeDuration d = false →
        get_duration e = .error .typeError) := by
  refine ⟨?_, ?_, ?_, ?_, ?_, ?_, ?_, ?_, ?_, ?_, ?_, ?_⟩
  · intro hshape
    cases hinfo : get_video_info e with
    | none => exact ⟨0, by simp [get_duration, hinfo]⟩
    | some info =>
        have hs := hshape info hinfo
        by_cases ht : truthy info = true
        · cases info with
          | jobj fields =>
              simp only [shapeOk] at hs
              cases hf : fields.lookup ("format") with
              | none =>
                  exact ⟨0, by simp [get_duration, hinfo, ht, durationLookup, getItem, hf]⟩
              | some fmt =>
                  rw [hf] at hs
                  cases fmt with
                  | jobj fs2 =>
                      have hs2 : (match fs2.lookup ("duration") with
                          | none => true
                          | some d => safeDuration d) = true := hs
                      cases hd : fs2.lookup ("duration") with
                      | none =>
                          exact ⟨0, by
                            simp [get_duration, hinfo, ht, durationLookup, getItem, hf, hd]⟩
                      | some d =>
                          rw [hd] at hs2
                          cases d with
                          | jnum q =>
                              exact ⟨q, by
                                simp [get_duration, hinfo, ht, durationLookup, getItem,
                                  hf, hd, pyFloat]⟩
                          | jbool b =>
                              exact ⟨if b then 1 else 0, by
                                simp [get_duration, hinfo, ht, durationLookup, getItem,
                                  hf, hd, pyFloat]⟩
                          | jstr str =>
                              cases hp : parsePyFloat str with
                              | none =>
                                  exact ⟨0, by
                                    simp [get_duration, hinfo, ht, durationLookup, getItem,
                                      hf, hd, pyFloat, hp]⟩
                              | some q =>
                                  exact ⟨q, by
                                    simp [get_duration, hinfo, ht, durationLookup, getItem,
                                      hf, hd, pyFloat, hp]⟩
                          | jnull => simp [safeDuration] at hs2
                          | jarr xs => simp [safeDuration] at hs2
                          | jobj o => simp [safeDuration] at hs2
                  | jnull => simp at hs
                  | jbool b => simp at hs
                  | jnum q => simp at hs
                  | jstr str => simp at hs
                  | jarr xs => simp at hs
          | jnull => simp [truthy] at ht
          | jbool b => simp only [shapeOk, ht] at hs; simp at hs
          | jnum q => simp only [shapeOk, ht] at hs; simp at hs
          | jstr str => simp only [shapeOk, ht] at hs; simp at hs
          | jarr xs => simp only [shapeOk, ht] at hs; simp at hs
        · have ht2 : truthy info = false := by
            rcases hb : truthy info with _ | _
            · rfl
            · exact absurd hb ht
          exact ⟨0, by simp [get_duration, hinfo, ht2]⟩
  · intro h
    simp [get_duration, h]
  · intro info h ht
    simp [get_duration, h, ht]
  · intro fields h ht hf
    simp [get_duration, h, ht, durationLookup, getItem, hf]
  · intro fields fs2 h ht hf hd
    simp [get_duration, h, ht, durationLookup, getItem, hf, hd]
  · intro fields fs2 q h ht hf hd
    simp [get_duration, h, ht, durationLookup, getItem, hf, hd, pyFloat]
  · intro fields fs2 b h ht hf hd
    simp [get_duration, h, ht, durationLookup, getItem, hf, hd, pyFloat]
  · intro fields fs2 str q h ht hf hd hp
    simp [get_duration, h, ht, durationLookup, getItem, hf, hd, pyFloat, hp]
  · intro fields fs2 str h ht hf hd hp
    simp [get_duration, h, ht, durationLookup, getItem, hf, hd, pyFloat, hp]
  · intro info h ht hne
    cases info with
    | jobj fields => exact absurd rfl (hne fields)
    | jnull => simp [truthy] at ht
    | jbool b => simp [get_duration, h, ht, durationLookup, getItem]
    | jnum q => simp [get_duration, h, ht, durationLookup, getItem]
    | jstr str => simp [get_duration, h, ht, durationLookup, getItem]
    | jarr xs => simp [get_duration, h, ht, durationLookup, getItem]
  · intro fields fmt h ht hf hne
    cases fmt with
    | jobj fs2 => exact absurd rfl (hne fs2)
    | jnull => simp [get_duration, h, ht, durationLookup, getItem, hf]
    | jbool b => simp [get_duration, h, ht, durationLookup, getItem, hf]
    | jnum q => simp [get_duration, h, ht, durationLookup, getItem, hf]
    | jstr str => simp [get_duration, h, ht, durationLookup, getItem, hf]
    | jarr xs => simp [get_duration, h, ht, durationLookup, getItem, hf]
  · intro fields fs2 d h ht hf hd hunsafe
    cases d with
    | jnum q => simp [safeDuration] at hunsafe
    | jbool b => simp [safeDuration] at hunsafe
    | jstr str => simp [safeDuration] at hunsafe
    | jnull => simp [get_duration, h, ht, durationLookup, getItem, hf, hd, pyFloat]
    | jarr xs => simp [get_duration, h, ht, durationLookup, getItem, hf, hd, pyFloat]
    | jobj o => simp [get_duration, h, ht, durationLookup, getItem, hf, hd, pyFloat]

/-- A well-shaped probe for the C9 witness. -/
def probeGood : ProbeEnv :=
  { subprocessError := false, returncode := 0,
    stdoutJson := some (.jobj [(("format"), .jobj [(("duration"), .jnum (25 / 2))])]) }

/-- C9 amended witness: on a probe with numeric duration 12.5 the
shape condition holds, so get_duration is total there, and the
numeric-duration case pins its value to exactly 25/2. -/
theorem get_duration_total_amended_witness :
    (∃ q, get_duration probeGood = .ok q)
    ∧ get_duration probeGood = .ok (25 / 2) :=
  ⟨(get_duration_total_amended probeGood).1 (by
      intro info h
      have h2 : some (JVal.jobj [(("format"), .jobj [(("duration"), .jnum (25 / 2))])])
          = some info := h
      injection h2 with h3
      rw [← h3]
      rfl),
   (get_duration_total_amended probeGood).2.2.2.2.2.1
     [(("format"), .jobj [(("duration"), .jnum (25 / 2))])]
     [(("duration"), .jnum (25 / 2))] (25 / 2) rfl rfl rfl rfl⟩

/-- C10: within one process the temp chunk directory and the concat
manifest paths are functions of the process id alone: two chunked jobs
in the same process use the identical temp directory, and merge_chunks
uses the identical manifest path whatever files, outcome or filesystem
it is given — exclusive per-job ownership rests on jobs being
sequential, not on unique names. -/
theorem temp_paths_process_scoped (cd : String) (pid : Nat)
    (env env2 : Env) (mw mw2 : Int) (s e s2 e2 : ℚ) (fs fs2 : FS)
    (h1 : 1 < mw) (hd1 : 30 ≤ e - s) (h2 : 1 < mw2) (hd2 : 30 ≤ e2 - s2) :
    (download_segment_parallel env mw s e cd pid fs).tempDirUsed
        = some (tempDirPath cd pid)
    ∧ (download_segment_parallel env2 mw2 s2 e2 cd pid fs2).tempDirUsed
        = some (tempDirPath cd pid)
    ∧ (download_segment_parallel env mw s e cd pid fs).tempDirUsed
        = (download_segment_parallel env2 mw2 s2 e2 cd pid fs2).tempDirUsed
    ∧ (∀ files oc fsx,
        (merge_chunks cd pid files oc fsx).manifestPath = concatListPath cd pid)
    ∧ (∀ files oc fsx files2 oc2 fsx2,
        (merge_chunks cd pid files oc fsx).manifestPath
          = (merge_chunks cd pid files2 oc2 fsx2).manifestPath) := by
  have key : ∀ (envx : Env) (mwx : Int) (sx ex : ℚ) (fsx : FS), 1 < mwx → 30 ≤ ex - sx →
      (download_segment_parallel envx mwx sx ex cd pid fsx).tempDirUsed
        = some (tempDirPath cd pid) := by
    intro envx mwx sx ex fsx hmw hdur
    have hcond : ¬(ex - sx < 30 ∨ mwx ≤ 1) := by push_neg; exact ⟨hdur, hmw⟩
    simp only [download_segment_parallel]
    rw [if_neg hcond]
    by_cases hc : (runExecutor envx.worker envx.completion (tempDirPath cd pid)).successFlag
          = true
        ∧ (runExecutor envx.worker envx.completion (tempDirPath cd pid)).collected.length
          = mwx.toNat
    · rw [if_pos hc]
    · rw [if_neg hc]
  have k1 := key env mw s e fs h1 hd1
  have k2 := key env2 mw2 s2 e2 fs2 h2 hd2
  exact ⟨k1, k2, by rw [k1, k2], fun _ _ _ => rfl, fun _ _ _ _ _ _ => rfl⟩

/-- C10 witness: two different jobs in process 7 share both paths. -/
theorem temp_paths_process_scoped_witness :
    (download_segment_parallel envAllOk 3 0 90 ("C") 7 fsClean).tempDirUsed
        = some (tempDirPath ("C") 7)
    ∧ (download_segment_parallel envOneFail 4 10 50 ("C") 7 fsClean).tempDirUsed
        = some (tempDirPath ("C") 7)
    ∧ (download_segment_parallel envAllOk 3 0 90 ("C") 7 fsClean).tempDirUsed
        = (download_segment_parallel envOneFail 4 10 50 ("C") 7 fsClean).tempDirUsed
    ∧ (∀ files oc fsx,
        (merge_chunks ("C") 7 files oc fsx).manifestPath = concatListPath ("C") 7)
    ∧ (∀ files oc fsx files2 oc2 fsx2,
        (merge_chunks ("C") 7 files oc fsx).manifestPath
          = (merge_chunks ("C") 7 files2 oc2 fsx2).manifestPath) :=
  temp_paths_process_scoped ("C") 7 envAllOk envOneFail 3 4 0 90 10 50 fsClean fsClean
    (by norm_num) (by norm_num) (by norm_num) (by norm_num)

end VideoTools
